import Mathlib

/-!
# keda-http-add-on: ScaledObject reconciliation

Shallow embedding of `operator/controllers/http/scaled_object.go`
(`createOrUpdateScaledObject`, `purgeLegacySO`).

The object store (`client.Client`) is an explicit state-passing interface: every
call takes the store state and returns its answer with the next state.  The Go
`error` result is an `Option StatusError` (`none` is `nil`).  Each function
returns, next to its error, the (possibly mutated) HTTPScaledObject, the final
store state and the list of store calls it issued, in order.  The logger and the
context are side channels and are left out.
-/

namespace KedaHttp

/-! ## Errors (k8s.io/apimachinery/pkg/api/errors) -/

/-- Reason carried by a store error; `errors.IsAlreadyExists` and
`errors.IsNotFound` test it. -/
inductive StatusReason
  | AlreadyExists
  | NotFound
  | Conflict
  | Timeout
  | InternalError
  | Unknown
  deriving DecidableEq, Repr

/-- A non-nil Go `error` coming back from the store. -/
structure StatusError where
  Reason : StatusReason
  Message : String
  deriving DecidableEq, Repr

/-- Go `errors.IsAlreadyExists(err)`. -/
def IsAlreadyExists (err : StatusError) : Bool :=
  decide (err.Reason = StatusReason.AlreadyExists)

/-- Go `errors.IsNotFound(err)`. -/
def IsNotFound (err : StatusError) : Bool :=
  decide (err.Reason = StatusReason.NotFound)

/-- Go `err.Error()`. -/
def StatusError.Error (err : StatusError) : String :=
  err.Message

/-! ## Resources -/

/-- Go `client.ObjectKey`. -/
structure ObjectKey where
  Namespace : String
  Name : String
  deriving DecidableEq, Repr

/-- Modelled from the spec: the `ScaledObject` type (kedav1alpha1, not under src/),
reduced to its identity, a store-managed resource version, and the fields the
payload builder receives. -/
structure ScaledObjectSpec where
  Deployment : String
  ScalerAddress : String
  Hosts : List String
  PathPrefixes : List String
  MinReplicaCount : Option Int
  MaxReplicaCount : Option Int
  CooldownPeriod : Option Int
  deriving DecidableEq, Repr

/-- Modelled from the spec: a `ScaledObject` (DerivedTrigger), identified by
(namespace, name). -/
structure ScaledObject where
  Namespace : String
  Name : String
  ResourceVersion : Nat
  Spec : ScaledObjectSpec
  deriving DecidableEq, Repr

/-- Go `GetName()` on a ScaledObject. -/
def ScaledObject.GetName (so : ScaledObject) : String := so.Name

/-- Store key of a ScaledObject. -/
def ScaledObject.key (so : ScaledObject) : ObjectKey :=
  { Namespace := so.Namespace, Name := so.Name }

/-- Modelled from the spec: `k8s.NewScaledObject` (pkg/k8s, not under src/):
builds the desired payload deterministically from its arguments; the name of the
payload is the name it is given. -/
def NewScaledObject (ns name deploymentName scalerAddress : String)
    (hosts pathPrefixes : List String)
    (minReplicas maxReplicas cooldownPeriod : Option Int) : ScaledObject :=
  { Namespace := ns
    Name := name
    ResourceVersion := 0
    Spec :=
      { Deployment := deploymentName
        ScalerAddress := scalerAddress
        Hosts := hosts
        PathPrefixes := pathPrefixes
        MinReplicaCount := minReplicas
        MaxReplicaCount := maxReplicas
        CooldownPeriod := cooldownPeriod } }

/-- Condition kinds (httpv1alpha1.HTTPScaledObjectCreationStatus). -/
inductive HTTPScaledObjectCreationStatus
  | Created
  | Error
  | Pending
  | Unknown
  | Terminating
  | Terminated
  | Ready
  deriving DecidableEq, Repr

/-- Tri-state status (metav1.ConditionStatus). -/
inductive ConditionStatus
  | ConditionTrue
  | ConditionFalse
  | ConditionUnknown
  deriving DecidableEq, Repr

/-- Reason codes (httpv1alpha1.HTTPScaledObjectConditionReason) used here. -/
inductive HTTPScaledObjectConditionReason
  | ErrorCreatingAppScaledObject
  | AppScaledObjectCreated
  | TerminatingResources
  | PendingCreation
  | HTTPScaledObjectIsReady
  deriving DecidableEq, Repr

/-- Modelled from the spec: a status condition (kind, status, reason, message);
the transition timestamp is left out. -/
structure HTTPScaledObjectCondition where
  CondType : HTTPScaledObjectCreationStatus
  Status : ConditionStatus
  Reason : HTTPScaledObjectConditionReason
  Message : String
  deriving DecidableEq, Repr

/-- Go `ReplicaStruct`: optional min and max (`*int32`). -/
structure ReplicaStruct where
  Min : Option Int
  Max : Option Int
  deriving DecidableEq, Repr

/-- Go `ScaleTargetRef`; only `Deployment` is read here. -/
structure ScaleTargetRef where
  Deployment : String
  Service : String
  Port : Int
  deriving DecidableEq, Repr

/-- Go `HTTPScaledObjectSpec`, the fields the reconciler reads. -/
structure HTTPScaledObjectSpec where
  Hosts : List String
  PathPrefixes : List String
  ScaleTargetRef : ScaleTargetRef
  Replicas : Option ReplicaStruct
  CooldownPeriod : Option Int
  deriving DecidableEq, Repr

/-- Go `HTTPScaledObject` (ScalingIntent); `Conditions` is `Status.Conditions`. -/
structure HTTPScaledObject where
  Namespace : String
  Name : String
  Spec : HTTPScaledObjectSpec
  Conditions : List HTTPScaledObjectCondition
  deriving DecidableEq, Repr

/-- Go `GetNamespace()`. -/
def HTTPScaledObject.GetNamespace (httpso : HTTPScaledObject) : String := httpso.Namespace

/-- Go `GetName()`. -/
def HTTPScaledObject.GetName (httpso : HTTPScaledObject) : String := httpso.Name

/-! ## Condition Recorder (not under src/) -/

/-- Modelled from the spec: `CreateCondition` builds a condition from
(kind, status, reason) with an empty message. -/
def CreateCondition (condType : HTTPScaledObjectCreationStatus) (status : ConditionStatus)
    (reason : HTTPScaledObjectConditionReason) : HTTPScaledObjectCondition :=
  { CondType := condType, Status := status, Reason := reason, Message := "" }

/-- Modelled from the spec: `SetMessage` attaches the free-text message. -/
def SetMessage (c : HTTPScaledObjectCondition) (message : String) : HTTPScaledObjectCondition :=
  { c with Message := message }

/-- Modelled from the spec: `AddCondition` appends the condition to the condition
list of the object (append-only from the reconciler's side). -/
def AddCondition (httpso : HTTPScaledObject) (condition : HTTPScaledObjectCondition) :
    HTTPScaledObject :=
  { httpso with Conditions := httpso.Conditions ++ [condition] }

/-! ## Store interface -/

/-- One store round trip, as issued by the reconciler. -/
inductive Call
  | Create (obj : ScaledObject)
  | Get (key : ObjectKey)
  | Patch (obj : ScaledObject)
  | Delete (obj : ScaledObject)
  deriving DecidableEq, Repr

/-- Is the call a create? -/
def Call.isCreate : Call → Bool
  | Call.Create _ => true
  | _ => false

/-- Is the call a get? -/
def Call.isGet : Call → Bool
  | Call.Get _ => true
  | _ => false

/-- Is the call a patch? -/
def Call.isPatch : Call → Bool
  | Call.Patch _ => true
  | _ => false

/-- Is the call a delete? -/
def Call.isDelete : Call → Bool
  | Call.Delete _ => true
  | _ => false

/-- The store capability (`client.Client`) over a store state `σ`.  `Create`,
`Patch` and `Delete` answer `nil` or an error; `Get` answers the object or an
error.  `Patch` is the merge-patch. -/
structure Client (σ : Type) where
  Create : σ → ScaledObject → Option StatusError × σ
  Get : σ → ObjectKey → Except StatusError ScaledObject × σ
  Patch : σ → ScaledObject → Option StatusError × σ
  Delete : σ → ScaledObject → Option StatusError × σ

/-- What one invocation leaves behind: the returned error, the HTTPScaledObject
after the in-place condition updates, the store state, and the store calls issued. -/
structure Outcome (σ : Type) where
  err : Option StatusError
  httpso : HTTPScaledObject
  store : σ
  calls : List Call

/-! ## scaled_object.go -/

/-- Key of the legacy ScaledObject: `fmt.Sprintf("%s-app", httpso.GetName())` in
the namespace of the HTTPScaledObject. -/
def legacyKey (httpso : HTTPScaledObject) : ObjectKey :=
  { Namespace := httpso.GetNamespace, Name := httpso.GetName ++ "-app" }

/-- Go `purgeLegacySO` (scaled_object.go:108-142). -/
def purgeLegacySO {σ : Type} (cl : Client σ) (st : σ) (httpso : HTTPScaledObject) : Outcome σ :=
  let legacyKey := legacyKey httpso
  let got := cl.Get st legacyKey
  match got.1 with
  | Except.error err =>
    if IsNotFound err then
      { err := none, httpso := httpso, store := got.2, calls := [Call.Get legacyKey] }
    else
      { err := some err, httpso := httpso, store := got.2, calls := [Call.Get legacyKey] }
  | Except.ok legacySO =>
    let deleted := cl.Delete got.2 legacySO
    match deleted.1 with
    | some err =>
      if IsNotFound err then
        { err := none, httpso := httpso, store := deleted.2
          calls := [Call.Get legacyKey, Call.Delete legacySO] }
      else
        { err := some err, httpso := httpso, store := deleted.2
          calls := [Call.Get legacyKey, Call.Delete legacySO] }
    | none =>
      { err := none, httpso := httpso, store := deleted.2
        calls := [Call.Get legacyKey, Call.Delete legacySO] }

/-- The desired payload built at scaled_object.go:30-50: replica bounds are taken
from `Spec.Replicas` when present, the path-prefix list is forced to nil. -/
def appScaledObject (externalScalerHostName : String) (httpso : HTTPScaledObject) :
    ScaledObject :=
  let minReplicaCount : Option Int :=
    match httpso.Spec.Replicas with
    | some replicas => replicas.Min
    | none => none
  let maxReplicaCount : Option Int :=
    match httpso.Spec.Replicas with
    | some replicas => replicas.Max
    | none => none
  NewScaledObject
    httpso.GetNamespace
    httpso.GetName
    httpso.Spec.ScaleTargetRef.Deployment
    externalScalerHostName
    httpso.Spec.Hosts
    []
    minReplicaCount
    maxReplicaCount
    httpso.Spec.CooldownPeriod

/-- The Error condition recorded at scaled_object.go:75-85. -/
def errorCondition (err : StatusError) : HTTPScaledObjectCondition :=
  SetMessage
    (CreateCondition HTTPScaledObjectCreationStatus.Error ConditionStatus.ConditionFalse
      HTTPScaledObjectConditionReason.ErrorCreatingAppScaledObject)
    err.Error

/-- The Created condition recorded at scaled_object.go:92-102. -/
def createdCondition : HTTPScaledObjectCondition :=
  SetMessage
    (CreateCondition HTTPScaledObjectCreationStatus.Created ConditionStatus.ConditionTrue
      HTTPScaledObjectConditionReason.AppScaledObjectCreated)
    "App ScaledObject created"

/-- The tail of `createOrUpdateScaledObject` (scaled_object.go:92-104): record the
Created condition, then return what `purgeLegacySO` returns.  `before` are the
store calls issued so far. -/
def recordCreatedAndPurge {σ : Type} (cl : Client σ) (st : σ) (httpso : HTTPScaledObject)
    (before : List Call) : Outcome σ :=
  let httpso1 := AddCondition httpso createdCondition
  let purged := purgeLegacySO cl st httpso1
  { purged with calls := before ++ purged.calls }

/-- Go `createOrUpdateScaledObject` (scaled_object.go:21-105). -/
def createOrUpdateScaledObject {σ : Type} (cl : Client σ) (st : σ)
    (externalScalerHostName : String) (httpso : HTTPScaledObject) : Outcome σ :=
  let appSO := appScaledObject externalScalerHostName httpso
  let created := cl.Create st appSO
  match created.1 with
  | some err =>
    if IsAlreadyExists err then
      let existingSOKey : ObjectKey :=
        { Namespace := httpso.GetNamespace, Name := appSO.GetName }
      let fetched := cl.Get created.2 existingSOKey
      match fetched.1 with
      | Except.error err1 =>
        { err := some err1, httpso := httpso, store := fetched.2
          calls := [Call.Create appSO, Call.Get existingSOKey] }
      | Except.ok _ =>
        let patched := cl.Patch fetched.2 appSO
        match patched.1 with
        | some err2 =>
          { err := some err2, httpso := httpso, store := patched.2
            calls := [Call.Create appSO, Call.Get existingSOKey, Call.Patch appSO] }
        | none =>
          recordCreatedAndPurge cl patched.2 httpso
            [Call.Create appSO, Call.Get existingSOKey, Call.Patch appSO]
    else
      { err := some err, httpso := AddCondition httpso (errorCondition err), store := created.2
        calls := [Call.Create appSO] }
  | none =>
    recordCreatedAndPurge cl created.2 httpso [Call.Create appSO]

/-! ## Store models used to exercise the code -/

/-- A stateless store that answers every call with a fixed, scripted response. -/
def scriptedClient (onCreate : Option StatusError)
    (onGet : ObjectKey → Except StatusError ScaledObject)
    (onPatch onDelete : Option StatusError) : Client Unit where
  Create := fun st _ => (onCreate, st)
  Get := fun st key => (onGet key, st)
  Patch := fun st _ => (onPatch, st)
  Delete := fun st _ => (onDelete, st)

/-- State of the faithful store: under each key, the resource version and the spec
of the ScaledObject stored there, if any. -/
abbrev Store := ObjectKey → Option (Nat × ScaledObjectSpec)

/-- The empty store. -/
def Store.empty : Store := fun _ => none

/-- Store with `entry` written under `key`. -/
def Store.set (st : Store) (key : ObjectKey) (entry : Option (Nat × ScaledObjectSpec)) : Store :=
  fun k => if k = key then entry else st k

/-- Spec stored under `key`. -/
def Store.spec (st : Store) (key : ObjectKey) : Option ScaledObjectSpec :=
  (st key).map Prod.snd

/-- The answer of the faithful store for a key that holds an object on create. -/
def alreadyExistsError : StatusError :=
  { Reason := StatusReason.AlreadyExists, Message := "scaledobjects already exists" }

/-- The answer of the faithful store for a key that holds no object. -/
def notFoundError : StatusError :=
  { Reason := StatusReason.NotFound, Message := "scaledobjects not found" }

/-- A store failure that is neither AlreadyExists nor NotFound. -/
def timeoutError : StatusError :=
  { Reason := StatusReason.Timeout, Message := "request timed out" }

/-- The faithful store: create succeeds iff the key is absent and otherwise answers
AlreadyExists; get answers the stored object or NotFound; merge-patch makes the
stored spec the spec of the payload (NotFound when absent); delete removes the
object (NotFound when absent). -/
def faithfulClient : Client Store where
  Create := fun st obj =>
    match st obj.key with
    | some _ => (some alreadyExistsError, st)
    | none => (none, st.set obj.key (some (1, obj.Spec)))
  Get := fun st key =>
    match st key with
    | some entry =>
      (Except.ok { Namespace := key.Namespace, Name := key.Name
                   ResourceVersion := entry.1, Spec := entry.2 }, st)
    | none => (Except.error notFoundError, st)
  Patch := fun st obj =>
    match st obj.key with
    | some entry => (none, st.set obj.key (some (entry.1 + 1, obj.Spec)))
    | none => (some notFoundError, st)
  Delete := fun st obj =>
    match st obj.key with
    | some _ => (none, st.set obj.key none)
    | none => (some notFoundError, st)

/-- The HTTPScaledObject `ns/foo` used in the worked examples. -/
def fooHTTPSO : HTTPScaledObject :=
  { Namespace := "ns"
    Name := "foo"
    Spec :=
      { Hosts := ["foo.example.com"]
        PathPrefixes := ["/api"]
        ScaleTargetRef := { Deployment := "foo-deploy", Service := "foo-svc", Port := 8080 }
        Replicas := some { Min := some 1, Max := some 5 }
        CooldownPeriod := some 300 }
    Conditions := [] }

/-- A ScaledObject stored under the legacy name `ns/foo-app`. -/
def fooLegacySO : ScaledObject :=
  NewScaledObject "ns" "foo-app" "foo-deploy" "old-scaler:9090" ["foo.example.com"] []
    (some 1) (some 5) none

/-- Store holding only the legacy object `ns/foo-app`. -/
def legacyOnlyStore : Store :=
  Store.empty.set fooLegacySO.key (some (7, fooLegacySO.Spec))

/-- Store holding both `ns/foo` (with an outdated spec) and the legacy `ns/foo-app`. -/
def bothStore : Store :=
  legacyOnlyStore.set { Namespace := "ns", Name := "foo" } (some (3, fooLegacySO.Spec))

/-- Store holding only `ns/foo` (with an outdated spec). -/
def currentOnlyStore : Store :=
  Store.empty.set { Namespace := "ns", Name := "foo" } (some (3, fooLegacySO.Spec))

/-! ## Helper lemmas -/

theorem legacy_name_ne (name : String) : name ++ "-app" ≠ name := by
  intro h
  have hl := congrArg String.length h
  rw [String.length_append] at hl
  have h4 : ("-app" : String).length = 4 := by decide
  omega

theorem legacyKey_ne_key (httpso : HTTPScaledObject) :
    legacyKey httpso ≠ { Namespace := httpso.Namespace, Name := httpso.Name } := by
  intro h
  have hn := congrArg ObjectKey.Name h
  exact legacy_name_ne httpso.Name hn

theorem appScaledObject_key (host : String) (httpso : HTTPScaledObject) :
    (appScaledObject host httpso).key = { Namespace := httpso.Namespace, Name := httpso.Name } := by
  rfl

theorem legacyKey_eq (httpso : HTTPScaledObject) :
    legacyKey httpso = { Namespace := httpso.Namespace, Name := httpso.Name ++ "-app" } := by
  rfl

theorem purge_of_get_error {σ : Type} (cl : Client σ) (st : σ) (httpso : HTTPScaledObject)
    (e : StatusError) (h : (cl.Get st (legacyKey httpso)).1 = Except.error e) :
    purgeLegacySO cl st httpso =
      { err := if IsNotFound e then none else some e
        httpso := httpso
        store := (cl.Get st (legacyKey httpso)).2
        calls := [Call.Get (legacyKey httpso)] } := by
  unfold purgeLegacySO
  simp only [h]
  cases IsNotFound e <;> rfl

theorem purge_of_delete_error {σ : Type} (cl : Client σ) (st : σ) (httpso : HTTPScaledObject)
    (obj : ScaledObject) (e : StatusError)
    (h : (cl.Get st (legacyKey httpso)).1 = Except.ok obj)
    (hd : (cl.Delete (cl.Get st (legacyKey httpso)).2 obj).1 = some e) :
    purgeLegacySO cl st httpso =
      { err := if IsNotFound e then none else some e
        httpso := httpso
        store := (cl.Delete (cl.Get st (legacyKey httpso)).2 obj).2
        calls := [Call.Get (legacyKey httpso), Call.Delete obj] } := by
  unfold purgeLegacySO
  simp only [h, hd]
  cases IsNotFound e <;> rfl

theorem purge_of_delete_ok {σ : Type} (cl : Client σ) (st : σ) (httpso : HTTPScaledObject)
    (obj : ScaledObject)
    (h : (cl.Get st (legacyKey httpso)).1 = Except.ok obj)
    (hd : (cl.Delete (cl.Get st (legacyKey httpso)).2 obj).1 = none) :
    purgeLegacySO cl st httpso =
      { err := none
        httpso := httpso
        store := (cl.Delete (cl.Get st (legacyKey httpso)).2 obj).2
        calls := [Call.Get (legacyKey httpso), Call.Delete obj] } := by
  unfold purgeLegacySO
  simp only [h, hd]

theorem purge_httpso {σ : Type} (cl : Client σ) (st : σ) (httpso : HTTPScaledObject) :
    (purgeLegacySO cl st httpso).httpso = httpso := by
  unfold purgeLegacySO
  simp only []
  split
  · split <;> rfl
  · split
    · split <;> rfl
    · rfl

theorem purge_calls_cases {σ : Type} (cl : Client σ) (st : σ) (httpso : HTTPScaledObject) :
    (purgeLegacySO cl st httpso).calls = [Call.Get (legacyKey httpso)] ∨
    ∃ obj, (cl.Get st (legacyKey httpso)).1 = Except.ok obj ∧
      (purgeLegacySO cl st httpso).calls = [Call.Get (legacyKey httpso), Call.Delete obj] := by
  cases hg : (cl.Get st (legacyKey httpso)).1 with
  | error e =>
    left
    rw [purge_of_get_error cl st httpso e hg]
  | ok obj =>
    right
    refine ⟨obj, rfl, ?_⟩
    cases hd : (cl.Delete (cl.Get st (legacyKey httpso)).2 obj).1 with
    | none => rw [purge_of_delete_ok cl st httpso obj hg hd]
    | some e => rw [purge_of_delete_error cl st httpso obj e hg hd]

theorem purge_err_conditions {σ : Type} (cl : Client σ) (st : σ) (httpso : HTTPScaledObject)
    (c : HTTPScaledObjectCondition) :
    (purgeLegacySO cl st (AddCondition httpso c)).err = (purgeLegacySO cl st httpso).err := by
  cases hg : (cl.Get st (legacyKey httpso)).1 with
  | error e =>
    rw [purge_of_get_error cl st httpso e hg,
      purge_of_get_error cl st (AddCondition httpso c) e hg]
  | ok obj =>
    cases hd : (cl.Delete (cl.Get st (legacyKey httpso)).2 obj).1 with
    | none =>
      rw [purge_of_delete_ok cl st httpso obj hg hd,
        purge_of_delete_ok cl st (AddCondition httpso c) obj hg hd]
    | some e =>
      rw [purge_of_delete_error cl st httpso obj e hg hd,
        purge_of_delete_error cl st (AddCondition httpso c) obj e hg hd]

/-- The five ways one invocation of `createOrUpdateScaledObject` can run. -/
theorem createOrUpdate_cases {σ : Type} (cl : Client σ) (st : σ) (host : String)
    (httpso : HTTPScaledObject) :
    ((cl.Create st (appScaledObject host httpso)).1 = none ∧
      createOrUpdateScaledObject cl st host httpso =
        recordCreatedAndPurge cl (cl.Create st (appScaledObject host httpso)).2 httpso
          [Call.Create (appScaledObject host httpso)]) ∨
    (∃ e, (cl.Create st (appScaledObject host httpso)).1 = some e ∧ IsAlreadyExists e = false ∧
      createOrUpdateScaledObject cl st host httpso =
        { err := some e
          httpso := AddCondition httpso (errorCondition e)
          store := (cl.Create st (appScaledObject host httpso)).2
          calls := [Call.Create (appScaledObject host httpso)] }) ∨
    (∃ e e1, (cl.Create st (appScaledObject host httpso)).1 = some e ∧ IsAlreadyExists e = true ∧
      (cl.Get (cl.Create st (appScaledObject host httpso)).2
        { Namespace := httpso.Namespace, Name := httpso.Name }).1 = Except.error e1 ∧
      createOrUpdateScaledObject cl st host httpso =
        { err := some e1
          httpso := httpso
          store := (cl.Get (cl.Create st (appScaledObject host httpso)).2
            { Namespace := httpso.Namespace, Name := httpso.Name }).2
          calls := [Call.Create (appScaledObject host httpso),
                    Call.Get { Namespace := httpso.Namespace, Name := httpso.Name }] }) ∨
    (∃ e obj e2, (cl.Create st (appScaledObject host httpso)).1 = some e ∧
      IsAlreadyExists e = true ∧
      (cl.Get (cl.Create st (appScaledObject host httpso)).2
        { Namespace := httpso.Namespace, Name := httpso.Name }).1 = Except.ok obj ∧
      (cl.Patch (cl.Get (cl.Create st (appScaledObject host httpso)).2
        { Namespace := httpso.Namespace, Name := httpso.Name }).2
        (appScaledObject host httpso)).1 = some e2 ∧
      createOrUpdateScaledObject cl st host httpso =
        { err := some e2
          httpso := httpso
          store := (cl.Patch (cl.Get (cl.Create st (appScaledObject host httpso)).2
            { Namespace := httpso.Namespace, Name := httpso.Name }).2
            (appScaledObject host httpso)).2
          calls := [Call.Create (appScaledObject host httpso),
                    Call.Get { Namespace := httpso.Namespace, Name := httpso.Name },
                    Call.Patch (appScaledObject host httpso)] }) ∨
    (∃ e obj, (cl.Create st (appScaledObject host httpso)).1 = some e ∧
      IsAlreadyExists e = true ∧
      (cl.Get (cl.Create st (appScaledObject host httpso)).2
        { Namespace := httpso.Namespace, Name := httpso.Name }).1 = Except.ok obj ∧
      (cl.Patch (cl.Get (cl.Create st (appScaledObject host httpso)).2
        { Namespace := httpso.Namespace, Name := httpso.Name }).2
        (appScaledObject host httpso)).1 = none ∧
      createOrUpdateScaledObject cl st host httpso =
        recordCreatedAndPurge cl
          (cl.Patch (cl.Get (cl.Create st (appScaledObject host httpso)).2
            { Namespace := httpso.Namespace, Name := httpso.Name }).2
            (appScaledObject host httpso)).2 httpso
          [Call.Create (appScaledObject host httpso),
           Call.Get { Namespace := httpso.Namespace, Name := httpso.Name },
           Call.Patch (appScaledObject host httpso)]) := by
  have hk : ({ Namespace := httpso.GetNamespace, Name := (appScaledObject host httpso).GetName } :
      ObjectKey) = { Namespace := httpso.Namespace, Name := httpso.Name } := rfl
  cases hc : (cl.Create st (appScaledObject host httpso)).1 with
  | none =>
    left
    refine ⟨rfl, ?_⟩
    unfold createOrUpdateScaledObject
    simp only [hc]
  | some e =>
    right
    cases hae : IsAlreadyExists e with
    | false =>
      left
      refine ⟨e, rfl, hae, ?_⟩
      unfold createOrUpdateScaledObject
      simp only [hc, hae]
      rfl
    | true =>
      right
      cases hg : (cl.Get (cl.Create st (appScaledObject host httpso)).2
          { Namespace := httpso.Namespace, Name := httpso.Name }).1 with
      | error e1 =>
        left
        refine ⟨e, e1, rfl, hae, rfl, ?_⟩
        unfold createOrUpdateScaledObject
        simp only [hc, hae, hk, hg]
        rfl
      | ok obj =>
        right
        cases hp : (cl.Patch (cl.Get (cl.Create st (appScaledObject host httpso)).2
            { Namespace := httpso.Namespace, Name := httpso.Name }).2
            (appScaledObject host httpso)).1 with
        | some e2 =>
          left
          refine ⟨e, obj, e2, rfl, hae, rfl, rfl, ?_⟩
          unfold createOrUpdateScaledObject
          simp only [hc, hae, hk, hg, hp]
          rfl
        | none =>
          right
          refine ⟨e, obj, rfl, hae, rfl, rfl, ?_⟩
          unfold createOrUpdateScaledObject
          simp only [hc, hae, hk, hg, hp]
          rfl

/-! ## purgeLegacySO -/

/-- C4: `purgeLegacySO` returns success exactly when the get of the legacy key
answers NotFound, or the get succeeds and the delete of the fetched object answers
success or NotFound; any other get or delete error is returned unmodified; a
delete is issued only when the get succeeded (and then on the fetched object). -/
theorem purgeLegacySO_outcome {σ : Type} (cl : Client σ) (st : σ) (httpso : HTTPScaledObject) :
    let got := cl.Get st { Namespace := httpso.Namespace, Name := httpso.Name ++ "-app" }
    let out := purgeLegacySO cl st httpso
    (out.err = none ↔
      ((∃ e, got.1 = Except.error e ∧ IsNotFound e = true) ∨
       (∃ obj, got.1 = Except.ok obj ∧
          ((cl.Delete got.2 obj).1 = none ∨
           ∃ e, (cl.Delete got.2 obj).1 = some e ∧ IsNotFound e = true)))) ∧
    (∀ e, got.1 = Except.error e → IsNotFound e = false → out.err = some e) ∧
    (∀ obj e, got.1 = Except.ok obj → (cl.Delete got.2 obj).1 = some e →
        IsNotFound e = false → out.err = some e) ∧
    (∀ obj, Call.Delete obj ∈ out.calls → got.1 = Except.ok obj) ∧
    (∀ obj, got.1 = Except.ok obj →
        out.calls = [Call.Get { Namespace := httpso.Namespace, Name := httpso.Name ++ "-app" },
                     Call.Delete obj]) ∧
    (∀ e, got.1 = Except.error e →
        out.calls = [Call.Get { Namespace := httpso.Namespace, Name := httpso.Name ++ "-app" }]) := by
  simp only [← legacyKey_eq]
  cases hg : (cl.Get st (legacyKey httpso)).1 with
  | error e =>
    rw [purge_of_get_error cl st httpso e hg]
    cases hnf : IsNotFound e <;> simp [hnf]
  | ok obj =>
    cases hd : (cl.Delete (cl.Get st (legacyKey httpso)).2 obj).1 with
    | none =>
      rw [purge_of_delete_ok cl st httpso obj hg hd]
      simp [hd]
      intro o e1 ho hd1
      subst ho
      rw [hd] at hd1
      cases hd1
    | some e =>
      rw [purge_of_delete_error cl st httpso obj e hg hd]
      cases hnf : IsNotFound e <;> simp [hd, hnf] <;>
        (intro o e1 ho hd1
         subst ho
         rw [hd] at hd1
         cases hd1
         simp [hnf])

/-- C4 at concrete inputs: on the faithful store holding `ns/foo-app` the purge
gets and deletes it; on a store whose get times out the timeout is returned. -/
theorem purgeLegacySO_outcome_witness :
    ((faithfulClient.Get legacyOnlyStore { Namespace := "ns", Name := "foo-app" }).1 =
        Except.ok { fooLegacySO with ResourceVersion := 7 } ∧
      (purgeLegacySO faithfulClient legacyOnlyStore fooHTTPSO).calls =
        [Call.Get { Namespace := "ns", Name := "foo-app" },
         Call.Delete { fooLegacySO with ResourceVersion := 7 }]) ∧
    (IsNotFound timeoutError = false ∧
      (purgeLegacySO (scriptedClient none (fun _ => Except.error timeoutError) none none) ()
        fooHTTPSO).err = some timeoutError) :=
  ⟨⟨by rfl,
    (purgeLegacySO_outcome faithfulClient legacyOnlyStore fooHTTPSO).2.2.2.2.1
      { fooLegacySO with ResourceVersion := 7 } (by rfl)⟩,
   ⟨by decide,
    (purgeLegacySO_outcome (scriptedClient none (fun _ => Except.error timeoutError) none none) ()
      fooHTTPSO).2.1 timeoutError (by rfl) (by decide)⟩⟩

/-! ## createOrUpdateScaledObject -/

/-- C1: whenever the upsert step succeeds (create succeeds, or create answers
AlreadyExists and the get of (namespace, name) and the merge-patch both succeed),
`createOrUpdateScaledObject` returns exactly what `purgeLegacySO` returns on that
intent, run from the store state the upsert left; the conditions recorded on the
intent do not change what the purge returns. -/
theorem createOrUpdate_returns_purge_result {σ : Type} (cl : Client σ) (st : σ) (host : String)
    (httpso : HTTPScaledObject) :
    let appSO := appScaledObject host httpso
    let key : ObjectKey := { Namespace := httpso.Namespace, Name := httpso.Name }
    let created := cl.Create st appSO
    let fetched := cl.Get created.2 key
    let patched := cl.Patch fetched.2 appSO
    let marked := AddCondition httpso createdCondition
    (created.1 = none →
      (createOrUpdateScaledObject cl st host httpso).err =
        (purgeLegacySO cl created.2 marked).err) ∧
    (∀ e obj, created.1 = some e → IsAlreadyExists e = true → fetched.1 = Except.ok obj →
      patched.1 = none →
      (createOrUpdateScaledObject cl st host httpso).err =
        (purgeLegacySO cl patched.2 marked).err) ∧
    (∀ s, (purgeLegacySO cl s marked).err = (purgeLegacySO cl s httpso).err) := by
  intro appSO key created fetched patched marked
  refine ⟨?_, ?_, ?_⟩
  · intro hc
    rcases createOrUpdate_cases cl st host httpso with h | h | h | h | h
    · rw [h.2]; rfl
    · obtain ⟨e, hc1, _⟩ := h
      rw [hc1] at hc; cases hc
    · obtain ⟨e, e1, hc1, _⟩ := h
      rw [hc1] at hc; cases hc
    · obtain ⟨e, obj, e2, hc1, _⟩ := h
      rw [hc1] at hc; cases hc
    · obtain ⟨e, obj, hc1, _⟩ := h
      rw [hc1] at hc; cases hc
  · intro e obj hc hae hg hp
    rcases createOrUpdate_cases cl st host httpso with h | h | h | h | h
    · rw [h.1] at hc; cases hc
    · obtain ⟨e0, hc1, hae1, _⟩ := h
      rw [hc1] at hc; cases hc
      rw [hae1] at hae; cases hae
    · obtain ⟨e0, e1, _, _, hg1, _⟩ := h
      rw [hg1] at hg; cases hg
    · obtain ⟨e0, obj0, e2, _, _, _, hp1, _⟩ := h
      rw [hp1] at hp; cases hp
    · obtain ⟨e0, obj0, _, _, _, _, hout⟩ := h
      rw [hout]; rfl
  · intro s
    exact purge_err_conditions cl s httpso createdCondition

/-- C1 at concrete inputs on the faithful store: `ns/foo` absent (create succeeds)
and `ns/foo` present (AlreadyExists, get and patch succeed). -/
theorem createOrUpdate_returns_purge_result_witness :
    ((faithfulClient.Create legacyOnlyStore (appScaledObject "scaler:9090" fooHTTPSO)).1 = none ∧
      (createOrUpdateScaledObject faithfulClient legacyOnlyStore "scaler:9090" fooHTTPSO).err =
        (purgeLegacySO faithfulClient
          (faithfulClient.Create legacyOnlyStore (appScaledObject "scaler:9090" fooHTTPSO)).2
          (AddCondition fooHTTPSO createdCondition)).err) ∧
    ((faithfulClient.Create bothStore (appScaledObject "scaler:9090" fooHTTPSO)).1 =
        some alreadyExistsError ∧
      (createOrUpdateScaledObject faithfulClient bothStore "scaler:9090" fooHTTPSO).err =
        (purgeLegacySO faithfulClient
          (faithfulClient.Patch bothStore (appScaledObject "scaler:9090" fooHTTPSO)).2
          (AddCondition fooHTTPSO createdCondition)).err) :=
  ⟨⟨by decide,
    (createOrUpdate_returns_purge_result faithfulClient legacyOnlyStore "scaler:9090"
      fooHTTPSO).1 (by decide)⟩,
   ⟨by decide,
    (createOrUpdate_returns_purge_result faithfulClient bothStore "scaler:9090"
      fooHTTPSO).2.1 alreadyExistsError
      { Namespace := "ns", Name := "foo", ResourceVersion := 3, Spec := fooLegacySO.Spec }
      (by decide) (by decide) (by rfl) (by decide)⟩⟩

/-- C2: if create answers AlreadyExists and the following get of the existing
ScaledObject fails with `e1`, then `createOrUpdateScaledObject` returns `e1`, its
store calls are exactly that create and that get (no patch, no get of the legacy
key, no delete), the store is left as that get left it, and the intent is
unchanged. -/
theorem createOrUpdate_fetch_failure {σ : Type} (cl : Client σ) (st : σ) (host : String)
    (httpso : HTTPScaledObject) (e e1 : StatusError)
    (hc : (cl.Create st (appScaledObject host httpso)).1 = some e)
    (hae : IsAlreadyExists e = true)
    (hg : (cl.Get (cl.Create st (appScaledObject host httpso)).2
        { Namespace := httpso.Namespace, Name := httpso.Name }).1 = Except.error e1) :
    let out := createOrUpdateScaledObject cl st host httpso
    out.err = some e1 ∧
    out.calls = [Call.Create (appScaledObject host httpso),
                 Call.Get { Namespace := httpso.Namespace, Name := httpso.Name }] ∧
    (∀ obj, Call.Patch obj ∉ out.calls) ∧
    (∀ obj, Call.Delete obj ∉ out.calls) ∧
    Call.Get { Namespace := httpso.Namespace, Name := httpso.Name ++ "-app" } ∉ out.calls ∧
    out.store = (cl.Get (cl.Create st (appScaledObject host httpso)).2
        { Namespace := httpso.Namespace, Name := httpso.Name }).2 ∧
    out.httpso = httpso := by
  intro out
  have hne := legacyKey_ne_key httpso
  rw [legacyKey_eq] at hne
  have hout : out = createOrUpdateScaledObject cl st host httpso := rfl
  rcases createOrUpdate_cases cl st host httpso with h | h | h | h | h
  · rw [h.1] at hc; cases hc
  · obtain ⟨e0, hc1, hae1, _⟩ := h
    rw [hc1] at hc; cases hc
    rw [hae1] at hae; cases hae
  · obtain ⟨e0, e2, _, _, hg1, h⟩ := h
    rw [hg1] at hg; cases hg
    rw [h] at hout
    rw [hout]
    simp [hne]
  · obtain ⟨e0, obj0, e2, _, _, hg1, _⟩ := h
    rw [hg1] at hg; cases hg
  · obtain ⟨e0, obj0, _, _, hg1, _⟩ := h
    rw [hg1] at hg; cases hg

/-- C2 at a concrete input: create answers AlreadyExists, the get times out. -/
theorem createOrUpdate_fetch_failure_witness :
    (createOrUpdateScaledObject
      (scriptedClient (some alreadyExistsError) (fun _ => Except.error timeoutError) none none) ()
      "scaler:9090" fooHTTPSO).err = some timeoutError :=
  (createOrUpdate_fetch_failure
    (scriptedClient (some alreadyExistsError) (fun _ => Except.error timeoutError) none none) ()
    "scaler:9090" fooHTTPSO alreadyExistsError timeoutError (by decide) (by decide) (by rfl)).1

/-- C3: if create fails with an error `e` that is not AlreadyExists, then
`createOrUpdateScaledObject` appends to the intent the condition Error / False /
ErrorCreatingAppScaledObject with the message of `e`, returns `e` unmodified, and
issues no store call other than that create. -/
theorem createOrUpdate_create_failure {σ : Type} (cl : Client σ) (st : σ) (host : String)
    (httpso : HTTPScaledObject) (e : StatusError)
    (hc : (cl.Create st (appScaledObject host httpso)).1 = some e)
    (hae : IsAlreadyExists e = false) :
    let out := createOrUpdateScaledObject cl st host httpso
    out.err = some e ∧
    out.httpso =
      { httpso with
        Conditions := httpso.Conditions ++
          [{ CondType := HTTPScaledObjectCreationStatus.Error
             Status := ConditionStatus.ConditionFalse
             Reason := HTTPScaledObjectConditionReason.ErrorCreatingAppScaledObject
             Message := e.Message }] } ∧
    out.calls = [Call.Create (appScaledObject host httpso)] ∧
    out.store = (cl.Create st (appScaledObject host httpso)).2 := by
  intro out
  have hout : out = createOrUpdateScaledObject cl st host httpso := rfl
  rcases createOrUpdate_cases cl st host httpso with h | h | h | h | h
  · rw [h.1] at hc; cases hc
  · obtain ⟨e0, hc1, _, h⟩ := h
    rw [hc1] at hc; cases hc
    rw [h] at hout
    rw [hout]
    exact ⟨rfl, rfl, rfl, rfl⟩
  · obtain ⟨e0, e2, hc1, hae1, _⟩ := h
    rw [hc1] at hc; cases hc
    rw [hae1] at hae; cases hae
  · obtain ⟨e0, obj0, e2, hc1, hae1, _⟩ := h
    rw [hc1] at hc; cases hc
    rw [hae1] at hae; cases hae
  · obtain ⟨e0, obj0, hc1, hae1, _⟩ := h
    rw [hc1] at hc; cases hc
    rw [hae1] at hae; cases hae

/-- C3 at a concrete input: create times out. -/
theorem createOrUpdate_create_failure_witness :
    (createOrUpdateScaledObject (scriptedClient (some timeoutError)
        (fun _ => Except.error notFoundError) none none) () "scaler:9090" fooHTTPSO).calls =
      [Call.Create (appScaledObject "scaler:9090" fooHTTPSO)] :=
  (createOrUpdate_create_failure (scriptedClient (some timeoutError)
      (fun _ => Except.error notFoundError) none none) () "scaler:9090" fooHTTPSO
    timeoutError (by decide) (by decide)).2.2.1

theorem recordCreatedAndPurge_httpso {σ : Type} (cl : Client σ) (st : σ)
    (httpso : HTTPScaledObject) (before : List Call) :
    (recordCreatedAndPurge cl st httpso before).httpso = AddCondition httpso createdCondition := by
  unfold recordCreatedAndPurge
  simp only [purge_httpso]

/-- C5: a run that returns success has appended exactly one condition, Created /
True / AppScaledObjectCreated; a run whose create failed with a non-AlreadyExists
error has appended exactly one condition, Error / False; a run that stopped at a
failing post-AlreadyExists get or patch has left the condition list unchanged; in
every run the appended conditions are at most one, so never a Created and an Error
together. -/
theorem createOrUpdate_condition_exclusivity {σ : Type} (cl : Client σ) (st : σ)
    (host : String) (httpso : HTTPScaledObject) :
    let appSO := appScaledObject host httpso
    let key : ObjectKey := { Namespace := httpso.Namespace, Name := httpso.Name }
    let created := cl.Create st appSO
    let fetched := cl.Get created.2 key
    let patched := cl.Patch fetched.2 appSO
    let out := createOrUpdateScaledObject cl st host httpso
    (out.err = none →
      out.httpso.Conditions = httpso.Conditions ++
        [{ CondType := HTTPScaledObjectCreationStatus.Created
           Status := ConditionStatus.ConditionTrue
           Reason := HTTPScaledObjectConditionReason.AppScaledObjectCreated
           Message := "App ScaledObject created" }]) ∧
    (∀ e, created.1 = some e → IsAlreadyExists e = false →
      out.httpso.Conditions = httpso.Conditions ++
        [{ CondType := HTTPScaledObjectCreationStatus.Error
           Status := ConditionStatus.ConditionFalse
           Reason := HTTPScaledObjectConditionReason.ErrorCreatingAppScaledObject
           Message := e.Message }]) ∧
    (∀ e e1, created.1 = some e → IsAlreadyExists e = true → fetched.1 = Except.error e1 →
      out.httpso.Conditions = httpso.Conditions) ∧
    (∀ e obj e2, created.1 = some e → IsAlreadyExists e = true → fetched.1 = Except.ok obj →
      patched.1 = some e2 → out.httpso.Conditions = httpso.Conditions) ∧
    (∃ added, out.httpso.Conditions = httpso.Conditions ++ added ∧ added.length ≤ 1 ∧
      ¬ ((∃ c ∈ added, c.CondType = HTTPScaledObjectCreationStatus.Created) ∧
         (∃ c ∈ added, c.CondType = HTTPScaledObjectCreationStatus.Error))) := by
  intro appSO key created fetched patched out
  have hout : out = createOrUpdateScaledObject cl st host httpso := rfl
  rcases createOrUpdate_cases cl st host httpso with h | h | h | h | h
  · obtain ⟨hc, h⟩ := h
    have hcond : out.httpso.Conditions = httpso.Conditions ++ [createdCondition] := by
      rw [hout, h, recordCreatedAndPurge_httpso]; rfl
    have hc1 : created.1 = none := hc
    refine ⟨fun _ => hcond, ?_, ?_, ?_, ⟨[createdCondition], hcond, by simp, ?_⟩⟩
    · intro e he; rw [hc1] at he; cases he
    · intro e e1 he; rw [hc1] at he; cases he
    · intro e obj e2 he; rw [hc1] at he; cases he
    · simp [createdCondition, SetMessage, CreateCondition]
  · obtain ⟨e, hc, hae, h⟩ := h
    have hcond : out.httpso.Conditions = httpso.Conditions ++ [errorCondition e] := by
      rw [hout, h]; rfl
    have herr : out.err = some e := by rw [hout, h]
    have hc1 : created.1 = some e := hc
    refine ⟨?_, ?_, ?_, ?_, ⟨[errorCondition e], hcond, by simp, ?_⟩⟩
    · intro hn; rw [herr] at hn; cases hn
    · intro e0 he _; rw [hc1] at he; cases he; exact hcond
    · intro e0 e1 he hae0; rw [hc1] at he; cases he; rw [hae] at hae0; cases hae0
    · intro e0 obj e2 he hae0; rw [hc1] at he; cases he; rw [hae] at hae0; cases hae0
    · simp [errorCondition, SetMessage, CreateCondition]
  · obtain ⟨e, e1, hc, hae, hg, h⟩ := h
    have hcond : out.httpso.Conditions = httpso.Conditions := by rw [hout, h]
    have herr : out.err = some e1 := by rw [hout, h]
    have hc1 : created.1 = some e := hc
    refine ⟨?_, ?_, ?_, ?_, ⟨[], by simpa using hcond, by simp, by simp⟩⟩
    · intro hn; rw [herr] at hn; cases hn
    · intro e0 he hae0; rw [hc1] at he; cases he; rw [hae] at hae0; cases hae0
    · intro _ _ _ _ _; exact hcond
    · intro _ _ _ _ _ _ _; exact hcond
  · obtain ⟨e, obj, e2, hc, hae, hg, hp, h⟩ := h
    have hcond : out.httpso.Conditions = httpso.Conditions := by rw [hout, h]
    have herr : out.err = some e2 := by rw [hout, h]
    have hc1 : created.1 = some e := hc
    refine ⟨?_, ?_, ?_, ?_, ⟨[], by simpa using hcond, by simp, by simp⟩⟩
    · intro hn; rw [herr] at hn; cases hn
    · intro e0 he hae0; rw [hc1] at he; cases he; rw [hae] at hae0; cases hae0
    · intro _ _ _ _ _; exact hcond
    · intro _ _ _ _ _ _ _; exact hcond
  · obtain ⟨e, obj, hc, hae, hg, hp, h⟩ := h
    have hcond : out.httpso.Conditions = httpso.Conditions ++ [createdCondition] := by
      rw [hout, h, recordCreatedAndPurge_httpso]; rfl
    have hc1 : created.1 = some e := hc
    have hg1 : fetched.1 = Except.ok obj := hg
    have hp1 : patched.1 = none := hp
    refine ⟨fun _ => hcond, ?_, ?_, ?_, ⟨[createdCondition], hcond, by simp, ?_⟩⟩
    · intro e0 he hae0; rw [hc1] at he; cases he; rw [hae] at hae0; cases hae0
    · intro e0 e1 _ _ hg0; rw [hg1] at hg0; cases hg0
    · intro e0 obj0 e2 _ _ _ hp0; rw [hp1] at hp0; cases hp0
    · simp [createdCondition, SetMessage, CreateCondition]

/-- C5 at concrete inputs: a successful run on the faithful store, a create
timeout, a get timeout after AlreadyExists, and a patch timeout after AlreadyExists. -/
theorem createOrUpdate_condition_exclusivity_witness :
    (createOrUpdateScaledObject faithfulClient legacyOnlyStore "scaler:9090"
        fooHTTPSO).httpso.Conditions =
      [{ CondType := HTTPScaledObjectCreationStatus.Created
         Status := ConditionStatus.ConditionTrue
         Reason := HTTPScaledObjectConditionReason.AppScaledObjectCreated
         Message := "App ScaledObject created" }] ∧
    (createOrUpdateScaledObject (scriptedClient (some timeoutError)
        (fun _ => Except.error notFoundError) none none) () "scaler:9090"
        fooHTTPSO).httpso.Conditions =
      [{ CondType := HTTPScaledObjectCreationStatus.Error
         Status := ConditionStatus.ConditionFalse
         Reason := HTTPScaledObjectConditionReason.ErrorCreatingAppScaledObject
         Message := "request timed out" }] ∧
    (createOrUpdateScaledObject (scriptedClient (some alreadyExistsError)
        (fun _ => Except.error timeoutError) none none) () "scaler:9090"
        fooHTTPSO).httpso.Conditions = [] ∧
    (createOrUpdateScaledObject (scriptedClient (some alreadyExistsError)
        (fun _ => Except.ok fooLegacySO) (some timeoutError) none) () "scaler:9090"
        fooHTTPSO).httpso.Conditions = [] :=
  ⟨(createOrUpdate_condition_exclusivity faithfulClient legacyOnlyStore "scaler:9090"
      fooHTTPSO).1 (by decide),
   (createOrUpdate_condition_exclusivity (scriptedClient (some timeoutError)
      (fun _ => Except.error notFoundError) none none) () "scaler:9090"
      fooHTTPSO).2.1 timeoutError (by decide) (by decide),
   (createOrUpdate_condition_exclusivity (scriptedClient (some alreadyExistsError)
      (fun _ => Except.error timeoutError) none none) () "scaler:9090"
      fooHTTPSO).2.2.1 alreadyExistsError timeoutError (by decide) (by decide) (by rfl),
   (createOrUpdate_condition_exclusivity (scriptedClient (some alreadyExistsError)
      (fun _ => Except.ok fooLegacySO) (some timeoutError) none) () "scaler:9090"
      fooHTTPSO).2.2.2.1 alreadyExistsError fooLegacySO timeoutError
      (by decide) (by decide) (by rfl) (by decide)⟩

/-- C6, refuted as stated: create succeeds and the get of the legacy key times
out; the invocation returns the timeout and has appended Created / True. -/
theorem createOrUpdate_error_after_created :
    (createOrUpdateScaledObject (scriptedClient none (fun _ => Except.error timeoutError)
        none none) () "scaler:9090" fooHTTPSO).err = some timeoutError ∧
    (createOrUpdateScaledObject (scriptedClient none (fun _ => Except.error timeoutError)
        none none) () "scaler:9090" fooHTTPSO).httpso.Conditions =
      fooHTTPSO.Conditions ++
        [{ CondType := HTTPScaledObjectCreationStatus.Created
           Status := ConditionStatus.ConditionTrue
           Reason := HTTPScaledObjectConditionReason.AppScaledObjectCreated
           Message := "App ScaledObject created" }] := by
  decide

/-- C6, amended: each invocation appends at most one condition; an invocation
that returns success has appended Created / True; an Error condition is appended
exactly when create failed with a non-AlreadyExists error, it is Error / False with
the message of that error, and the invocation returns that error; a Created / True
condition is appended exactly when the upsert step succeeded (create succeeded, or
AlreadyExists followed by a successful get and patch), and the invocation then
returns what `purgeLegacySO` returns, error or not; when the get or the patch
after AlreadyExists fails, the invocation returns an error and appends nothing. -/
theorem createOrUpdate_condition_outcome {σ : Type} (cl : Client σ) (st : σ)
    (host : String) (httpso : HTTPScaledObject) :
    let appSO := appScaledObject host httpso
    let key : ObjectKey := { Namespace := httpso.Namespace, Name := httpso.Name }
    let created := cl.Create st appSO
    let fetched := cl.Get created.2 key
    let patched := cl.Patch fetched.2 appSO
    let out := createOrUpdateScaledObject cl st host httpso
    ∃ added, out.httpso.Conditions = httpso.Conditions ++ added ∧ added.length ≤ 1 ∧
      (out.err = none →
        added = [{ CondType := HTTPScaledObjectCreationStatus.Created
                   Status := ConditionStatus.ConditionTrue
                   Reason := HTTPScaledObjectConditionReason.AppScaledObjectCreated
                   Message := "App ScaledObject created" }]) ∧
      (∀ c ∈ added,
        c = { CondType := HTTPScaledObjectCreationStatus.Created
              Status := ConditionStatus.ConditionTrue
              Reason := HTTPScaledObjectConditionReason.AppScaledObjectCreated
              Message := "App ScaledObject created" } ∨
        ∃ e, created.1 = some e ∧ IsAlreadyExists e = false ∧ out.err = some e ∧
          c = { CondType := HTTPScaledObjectCreationStatus.Error
                Status := ConditionStatus.ConditionFalse
                Reason := HTTPScaledObjectConditionReason.ErrorCreatingAppScaledObject
                Message := e.Message }) ∧
      ((∃ c ∈ added, c.CondType = HTTPScaledObjectCreationStatus.Error) ↔
        ∃ e, created.1 = some e ∧ IsAlreadyExists e = false) ∧
      ((∃ c ∈ added, c.CondType = HTTPScaledObjectCreationStatus.Created) ↔
        (created.1 = none ∨
         ∃ e obj, created.1 = some e ∧ IsAlreadyExists e = true ∧
           fetched.1 = Except.ok obj ∧ patched.1 = none)) ∧
      (created.1 = none → out.err = (purgeLegacySO cl created.2 httpso).err) ∧
      (∀ e obj, created.1 = some e → IsAlreadyExists e = true → fetched.1 = Except.ok obj →
        patched.1 = none → out.err = (purgeLegacySO cl patched.2 httpso).err) ∧
      (∀ e, created.1 = some e → IsAlreadyExists e = true →
        ((∃ e1, fetched.1 = Except.error e1) ∨ (∃ e2, patched.1 = some e2)) →
        added = [] ∧ out.err ≠ none) := by
  intro appSO key created fetched patched out
  have hout : out = createOrUpdateScaledObject cl st host httpso := rfl
  rcases createOrUpdate_cases cl st host httpso with h | h | h | h | h
  · obtain ⟨hc, h⟩ := h
    have hcond : out.httpso.Conditions = httpso.Conditions ++ [createdCondition] := by
      rw [hout, h, recordCreatedAndPurge_httpso]; rfl
    have herr : out.err = (purgeLegacySO cl created.2 httpso).err := by
      rw [hout, h]
      exact purge_err_conditions cl _ httpso createdCondition
    have hc1 : created.1 = none := hc
    refine ⟨[createdCondition], hcond, by simp, fun _ => rfl, ?_, ?_, ?_, fun _ => herr, ?_, ?_⟩
    · intro c hmem
      left
      simpa [createdCondition, SetMessage, CreateCondition] using hmem
    · simp [createdCondition, SetMessage, CreateCondition, hc1]
    · simp [createdCondition, SetMessage, CreateCondition, hc1]
    · intro e obj he; rw [hc1] at he; cases he
    · intro e he; rw [hc1] at he; cases he
  · obtain ⟨e, hc, hae, h⟩ := h
    have hcond : out.httpso.Conditions = httpso.Conditions ++ [errorCondition e] := by
      rw [hout, h]; rfl
    have herr : out.err = some e := by rw [hout, h]
    have hc1 : created.1 = some e := hc
    refine ⟨[errorCondition e], hcond, by simp, ?_, ?_, ?_, ?_, ?_, ?_, ?_⟩
    · intro hn; rw [herr] at hn; cases hn
    · intro c hmem
      right
      refine ⟨e, hc1, hae, herr, ?_⟩
      simpa [errorCondition, SetMessage, CreateCondition, StatusError.Error] using hmem
    · simp [errorCondition, SetMessage, CreateCondition, hc1, hae]
    · simp [errorCondition, SetMessage, CreateCondition, hc1, hae]
    · intro he; rw [hc1] at he; cases he
    · intro e0 obj he hae0; rw [hc1] at he; cases he; rw [hae] at hae0; cases hae0
    · intro e0 he hae0; rw [hc1] at he; cases he; rw [hae] at hae0; cases hae0
  · obtain ⟨e, e1, hc, hae, hg, h⟩ := h
    have hcond : out.httpso.Conditions = httpso.Conditions := by rw [hout, h]
    have herr : out.err = some e1 := by rw [hout, h]
    have hc1 : created.1 = some e := hc
    have hg1 : fetched.1 = Except.error e1 := hg
    refine ⟨[], by simpa using hcond, by simp, ?_, by simp, ?_, ?_, ?_, ?_, ?_⟩
    · intro hn; rw [herr] at hn; cases hn
    · simp [hc1, hae]
    · simp [hc1, hg1]
    · intro he; rw [hc1] at he; cases he
    · intro e0 obj _ _ hg0; rw [hg1] at hg0; cases hg0
    · intro _ _ _ _
      exact ⟨rfl, by rw [herr]; simp⟩
  · obtain ⟨e, obj, e2, hc, hae, hg, hp, h⟩ := h
    have hcond : out.httpso.Conditions = httpso.Conditions := by rw [hout, h]
    have herr : out.err = some e2 := by rw [hout, h]
    have hc1 : created.1 = some e := hc
    have hp1 : patched.1 = some e2 := hp
    refine ⟨[], by simpa using hcond, by simp, ?_, by simp, ?_, ?_, ?_, ?_, ?_⟩
    · intro hn; rw [herr] at hn; cases hn
    · simp [hc1, hae]
    · simp [hc1, hp1]
    · intro he; rw [hc1] at he; cases he
    · intro e0 obj0 _ _ _ hp0; rw [hp1] at hp0; cases hp0
    · intro _ _ _ _
      exact ⟨rfl, by rw [herr]; simp⟩
  · obtain ⟨e, obj, hc, hae, hg, hp, h⟩ := h
    have hcond : out.httpso.Conditions = httpso.Conditions ++ [createdCondition] := by
      rw [hout, h, recordCreatedAndPurge_httpso]; rfl
    have herr : out.err = (purgeLegacySO cl patched.2 httpso).err := by
      rw [hout, h]
      exact purge_err_conditions cl _ httpso createdCondition
    have hc1 : created.1 = some e := hc
    have hg1 : fetched.1 = Except.ok obj := hg
    have hp1 : patched.1 = none := hp
    refine ⟨[createdCondition], hcond, by simp, fun _ => rfl, ?_, ?_, ?_, ?_,
      fun _ _ _ _ _ _ => herr, ?_⟩
    · intro c hmem
      left
      simpa [createdCondition, SetMessage, CreateCondition] using hmem
    · simp [createdCondition, SetMessage, CreateCondition, hc1, hae]
    · simp [createdCondition, SetMessage, CreateCondition, hc1, hae, hg1, hp1]
    · intro he; rw [hc1] at he; cases he
    · intro e0 he hae0 hfail
      rcases hfail with ⟨e1, hg0⟩ | ⟨e2, hp0⟩
      · rw [hg1] at hg0; cases hg0
      · rw [hp1] at hp0; cases hp0

theorem legacyKey_AddCondition (httpso : HTTPScaledObject) (c : HTTPScaledObjectCondition) :
    legacyKey (AddCondition httpso c) = legacyKey httpso := by
  rfl

theorem recordCreatedAndPurge_calls {σ : Type} (cl : Client σ) (st : σ)
    (httpso : HTTPScaledObject) (before : List Call) :
    (recordCreatedAndPurge cl st httpso before).calls = before ++ [Call.Get (legacyKey httpso)] ∨
    ∃ obj, (cl.Get st (legacyKey httpso)).1 = Except.ok obj ∧
      (recordCreatedAndPurge cl st httpso before).calls =
        before ++ [Call.Get (legacyKey httpso), Call.Delete obj] := by
  have hcalls : (recordCreatedAndPurge cl st httpso before).calls =
      before ++ (purgeLegacySO cl st (AddCondition httpso createdCondition)).calls := rfl
  rcases purge_calls_cases cl st (AddCondition httpso createdCondition) with h | ⟨obj, hg, h⟩
  · left
    rw [hcalls, h, legacyKey_AddCondition]
  · right
    rw [legacyKey_AddCondition] at hg h
    exact ⟨obj, hg, by rw [hcalls, h]⟩

/-- C9, refuted as stated: on the faithful store holding both `ns/foo` and the
legacy `ns/foo-app`, one invocation issues five store calls: create, get, patch,
get of the legacy key, delete. -/
theorem createOrUpdate_five_calls :
    (createOrUpdateScaledObject faithfulClient bothStore "scaler:9090" fooHTTPSO).calls =
      [Call.Create (appScaledObject "scaler:9090" fooHTTPSO),
       Call.Get { Namespace := "ns", Name := "foo" },
       Call.Patch (appScaledObject "scaler:9090" fooHTTPSO),
       Call.Get { Namespace := "ns", Name := "foo-app" },
       Call.Delete { fooLegacySO with ResourceVersion := 7 }] ∧
    ¬ (createOrUpdateScaledObject faithfulClient bothStore "scaler:9090"
        fooHTTPSO).calls.length ≤ 4 := by
  decide

/-- C9, amended: one invocation of `createOrUpdateScaledObject` (including the
purge it runs) issues at most 5 store calls in total: exactly one create, at most
two gets, at most one patch and at most one delete. -/
theorem createOrUpdate_call_bound {σ : Type} (cl : Client σ) (st : σ) (host : String)
    (httpso : HTTPScaledObject) :
    let out := createOrUpdateScaledObject cl st host httpso
    out.calls.length ≤ 5 ∧
    (out.calls.filter Call.isCreate).length = 1 ∧
    (out.calls.filter Call.isGet).length ≤ 2 ∧
    (out.calls.filter Call.isPatch).length ≤ 1 ∧
    (out.calls.filter Call.isDelete).length ≤ 1 := by
  intro out
  have hout : out = createOrUpdateScaledObject cl st host httpso := rfl
  rcases createOrUpdate_cases cl st host httpso with h | h | h | h | h
  · obtain ⟨_, h⟩ := h
    rw [hout, h]
    rcases recordCreatedAndPurge_calls cl (cl.Create st (appScaledObject host httpso)).2 httpso
      [Call.Create (appScaledObject host httpso)] with hc | ⟨obj, _, hc⟩ <;>
      rw [hc] <;>
      simp [Call.isCreate, Call.isGet, Call.isPatch, Call.isDelete]
  · obtain ⟨e, _, _, h⟩ := h
    rw [hout, h]
    simp [Call.isCreate, Call.isGet, Call.isPatch, Call.isDelete]
  · obtain ⟨e, e1, _, _, _, h⟩ := h
    rw [hout, h]
    simp [Call.isCreate, Call.isGet, Call.isPatch, Call.isDelete]
  · obtain ⟨e, obj, e2, _, _, _, _, h⟩ := h
    rw [hout, h]
    simp [Call.isCreate, Call.isGet, Call.isPatch, Call.isDelete]
  · obtain ⟨e, obj, _, _, _, _, h⟩ := h
    rw [hout, h]
    rcases recordCreatedAndPurge_calls cl
      (cl.Patch (cl.Get (cl.Create st (appScaledObject host httpso)).2
        { Namespace := httpso.Namespace, Name := httpso.Name }).2
        (appScaledObject host httpso)).2 httpso
      [Call.Create (appScaledObject host httpso),
       Call.Get { Namespace := httpso.Namespace, Name := httpso.Name },
       Call.Patch (appScaledObject host httpso)] with hc | ⟨obj1, _, hc⟩ <;>
      rw [hc] <;>
      simp [Call.isCreate, Call.isGet, Call.isPatch, Call.isDelete]

theorem faithful_get_key (st : Store) (k : ObjectKey) (obj : ScaledObject)
    (h : (faithfulClient.Get st k).1 = Except.ok obj) : obj.key = k := by
  unfold faithfulClient at h
  simp only at h
  cases hk : st k with
  | none => rw [hk] at h; cases h
  | some entry =>
    rw [hk] at h
    simp only [Except.ok.injEq] at h
    rw [← h]
    rfl

/-- C10: `createOrUpdateScaledObject` never deletes the ScaledObject it maintains:
the legacy key (namespace, name ++ "-app") differs from the key (namespace, name);
create and patch are issued on the payload, whose key is (namespace, name); every
get is on one of the two keys; every delete comes right after the get of the legacy
key and is issued on the object that get answered, which on the faithful store is
the object stored under the legacy key. -/
theorem createOrUpdate_never_deletes_current {σ : Type} (cl : Client σ) (st : σ)
    (host : String) (httpso : HTTPScaledObject) :
    let key : ObjectKey := { Namespace := httpso.Namespace, Name := httpso.Name }
    let lkey : ObjectKey := { Namespace := httpso.Namespace, Name := httpso.Name ++ "-app" }
    let out := createOrUpdateScaledObject cl st host httpso
    lkey ≠ key ∧
    (∀ obj, Call.Create obj ∈ out.calls → obj = appScaledObject host httpso ∧ obj.key = key) ∧
    (∀ obj, Call.Patch obj ∈ out.calls → obj = appScaledObject host httpso ∧ obj.key = key) ∧
    (∀ k, Call.Get k ∈ out.calls → k = key ∨ k = lkey) ∧
    (∀ obj, Call.Delete obj ∈ out.calls →
      ∃ pre s, out.calls = pre ++ [Call.Get lkey, Call.Delete obj] ∧
        (cl.Get s lkey).1 = Except.ok obj) ∧
    (∀ (s : Store) obj,
      Call.Delete obj ∈ (createOrUpdateScaledObject faithfulClient s host httpso).calls →
        obj.key = lkey ∧ obj.key ≠ key) := by
  intro key lkey out
  have hne : lkey ≠ key := by
    have h := legacyKey_ne_key httpso
    rw [legacyKey_eq] at h
    exact h
  have hl : legacyKey httpso = lkey := rfl
  have hk : (appScaledObject host httpso).key = key := rfl
  have general : ∀ (τ : Type) (c : Client τ) (s0 : τ),
      (∀ obj, Call.Create obj ∈ (createOrUpdateScaledObject c s0 host httpso).calls →
        obj = appScaledObject host httpso ∧ obj.key = key) ∧
      (∀ obj, Call.Patch obj ∈ (createOrUpdateScaledObject c s0 host httpso).calls →
        obj = appScaledObject host httpso ∧ obj.key = key) ∧
      (∀ k, Call.Get k ∈ (createOrUpdateScaledObject c s0 host httpso).calls →
        k = key ∨ k = lkey) ∧
      (∀ obj, Call.Delete obj ∈ (createOrUpdateScaledObject c s0 host httpso).calls →
        ∃ pre s, (createOrUpdateScaledObject c s0 host httpso).calls =
            pre ++ [Call.Get lkey, Call.Delete obj] ∧
          (c.Get s lkey).1 = Except.ok obj) := by
    intro τ c s0
    rcases createOrUpdate_cases c s0 host httpso with h | h | h | h | h
    · obtain ⟨_, h⟩ := h
      rw [h]
      rcases recordCreatedAndPurge_calls c (c.Create s0 (appScaledObject host httpso)).2 httpso
        [Call.Create (appScaledObject host httpso)] with hc | ⟨o, hg, hc⟩
      · rw [hc, hl]
        simp [hk]
      · rw [hc, hl]
        rw [hl] at hg
        simp only [List.mem_append, List.mem_cons, List.mem_singleton, Call.Create.injEq,
          Call.Get.injEq, Call.Patch.injEq, Call.Delete.injEq, List.not_mem_nil, or_false,
          false_or, reduceCtorEq]
        refine ⟨fun obj ho => ⟨ho, ho ▸ hk⟩, fun obj ho => ho.elim, fun k hk1 => Or.inr hk1, ?_⟩
        intro obj ho
        subst ho
        exact ⟨_, _, rfl, hg⟩
    · obtain ⟨e, _, _, h⟩ := h
      rw [h]
      simp [hk]
    · obtain ⟨e, e1, _, _, _, h⟩ := h
      rw [h]
      simp [hk]
    · obtain ⟨e, o, e2, _, _, _, _, h⟩ := h
      rw [h]
      simp [hk]
    · obtain ⟨e, o, _, _, _, _, h⟩ := h
      rw [h]
      rcases recordCreatedAndPurge_calls c
        (c.Patch (c.Get (c.Create s0 (appScaledObject host httpso)).2
          { Namespace := httpso.Namespace, Name := httpso.Name }).2
          (appScaledObject host httpso)).2 httpso
        [Call.Create (appScaledObject host httpso),
         Call.Get { Namespace := httpso.Namespace, Name := httpso.Name },
         Call.Patch (appScaledObject host httpso)] with hc | ⟨o1, hg, hc⟩
      · rw [hc, hl]
        simp [hk]
      · rw [hc, hl]
        rw [hl] at hg
        simp only [List.mem_append, List.mem_cons, List.mem_singleton, Call.Create.injEq,
          Call.Get.injEq, Call.Patch.injEq, Call.Delete.injEq, List.not_mem_nil, or_false,
          false_or, reduceCtorEq]
        refine ⟨fun obj ho => ⟨ho, ho ▸ hk⟩, fun obj ho => ⟨ho, ho ▸ hk⟩, ?_, ?_⟩
        · intro k hk1
          rcases hk1 with hk1 | hk1
          · left; exact hk1
          · right; exact hk1
        · intro obj ho
          subst ho
          exact ⟨_, _, rfl, hg⟩
  obtain ⟨g1, g2, g3, g4⟩ := general σ cl st
  refine ⟨hne, g1, g2, g3, g4, ?_⟩
  intro s obj hmem
  obtain ⟨_, _, _, f4⟩ := general Store faithfulClient s
  obtain ⟨pre, s1, _, hg⟩ := f4 obj hmem
  have hkey := faithful_get_key s1 lkey obj hg
  exact ⟨hkey, hkey ▸ hne⟩

/-! ## On the faithful store -/

theorem faithful_purge_absent (st : Store) (httpso : HTTPScaledObject)
    (h : st (legacyKey httpso) = none) :
    purgeLegacySO faithfulClient st httpso =
      { err := none, httpso := httpso, store := st, calls := [Call.Get (legacyKey httpso)] } := by
  have hg : faithfulClient.Get st (legacyKey httpso) = (Except.error notFoundError, st) := by
    simp only [faithfulClient, h]
  rw [purge_of_get_error faithfulClient st httpso notFoundError (by rw [hg]), hg]
  rfl

theorem faithful_purge_present (st : Store) (httpso : HTTPScaledObject)
    (entry : Nat × ScaledObjectSpec) (h : st (legacyKey httpso) = some entry) :
    purgeLegacySO faithfulClient st httpso =
      { err := none
        httpso := httpso
        store := st.set (legacyKey httpso) none
        calls := [Call.Get (legacyKey httpso),
                  Call.Delete { Namespace := httpso.Namespace, Name := httpso.Name ++ "-app",
                                ResourceVersion := entry.1, Spec := entry.2 }] } := by
  have hg : faithfulClient.Get st (legacyKey httpso) =
      (Except.ok { Namespace := httpso.Namespace, Name := httpso.Name ++ "-app",
                   ResourceVersion := entry.1, Spec := entry.2 }, st) := by
    simp only [faithfulClient, h]
    rfl
  have hd : faithfulClient.Delete st
      { Namespace := httpso.Namespace, Name := httpso.Name ++ "-app",
        ResourceVersion := entry.1, Spec := entry.2 } =
      (none, st.set (legacyKey httpso) none) := by
    have hkey : ScaledObject.key
        { Namespace := httpso.Namespace, Name := httpso.Name ++ "-app",
          ResourceVersion := entry.1, Spec := entry.2 } = legacyKey httpso := rfl
    simp only [faithfulClient, hkey, h]
  rw [purge_of_delete_ok faithfulClient st httpso _ (by rw [hg]) (by rw [hg, hd]), hg, hd]

theorem faithful_purge (st : Store) (httpso : HTTPScaledObject) :
    (purgeLegacySO faithfulClient st httpso).err = none ∧
    (purgeLegacySO faithfulClient st httpso).store (legacyKey httpso) = none ∧
    ∀ k, k ≠ legacyKey httpso → (purgeLegacySO faithfulClient st httpso).store k = st k := by
  cases h : st (legacyKey httpso) with
  | none =>
    rw [faithful_purge_absent st httpso h]
    exact ⟨rfl, h, fun _ _ => rfl⟩
  | some entry =>
    rw [faithful_purge_present st httpso entry h]
    refine ⟨rfl, ?_, ?_⟩
    · simp [Store.set]
    · intro k hk
      simp [Store.set, hk]

theorem faithful_recordCreatedAndPurge (st : Store) (httpso : HTTPScaledObject)
    (before : List Call) :
    (recordCreatedAndPurge faithfulClient st httpso before).err = none ∧
    (recordCreatedAndPurge faithfulClient st httpso before).store (legacyKey httpso) = none ∧
    ∀ k, k ≠ legacyKey httpso →
      (recordCreatedAndPurge faithfulClient st httpso before).store k = st k := by
  have h := faithful_purge st (AddCondition httpso createdCondition)
  rw [legacyKey_AddCondition] at h
  exact h

theorem faithful_createOrUpdate (st : Store) (host : String) (httpso : HTTPScaledObject) :
    (createOrUpdateScaledObject faithfulClient st host httpso).err = none ∧
    Store.spec (createOrUpdateScaledObject faithfulClient st host httpso).store
      { Namespace := httpso.Namespace, Name := httpso.Name } =
        some (appScaledObject host httpso).Spec ∧
    (createOrUpdateScaledObject faithfulClient st host httpso).store (legacyKey httpso) = none := by
  have hne : ({ Namespace := httpso.Namespace, Name := httpso.Name } : ObjectKey) ≠
      legacyKey httpso := fun h => legacyKey_ne_key httpso h.symm
  have hkey := appScaledObject_key host httpso
  have hk : ({ Namespace := httpso.GetNamespace, Name := (appScaledObject host httpso).GetName } :
      ObjectKey) = { Namespace := httpso.Namespace, Name := httpso.Name } := rfl
  cases hst : st { Namespace := httpso.Namespace, Name := httpso.Name } with
  | none =>
    have hC : faithfulClient.Create st (appScaledObject host httpso) =
        (none, st.set { Namespace := httpso.Namespace, Name := httpso.Name }
          (some (1, (appScaledObject host httpso).Spec))) := by
      simp only [faithfulClient, hkey, hst]
    have hrun : createOrUpdateScaledObject faithfulClient st host httpso =
        recordCreatedAndPurge faithfulClient
          (st.set { Namespace := httpso.Namespace, Name := httpso.Name }
            (some (1, (appScaledObject host httpso).Spec))) httpso
          [Call.Create (appScaledObject host httpso)] := by
      unfold createOrUpdateScaledObject
      simp only [hC]
    obtain ⟨h1, h2, h3⟩ := faithful_recordCreatedAndPurge
      (st.set { Namespace := httpso.Namespace, Name := httpso.Name }
        (some (1, (appScaledObject host httpso).Spec))) httpso
      [Call.Create (appScaledObject host httpso)]
    rw [hrun]
    refine ⟨h1, ?_, h2⟩
    unfold Store.spec
    rw [h3 _ hne]
    simp [Store.set]
  | some entry =>
    have hC : faithfulClient.Create st (appScaledObject host httpso) =
        (some alreadyExistsError, st) := by
      simp only [faithfulClient, hkey, hst]
    have hG : faithfulClient.Get st { Namespace := httpso.Namespace, Name := httpso.Name } =
        (Except.ok { Namespace := httpso.Namespace, Name := httpso.Name,
                     ResourceVersion := entry.1, Spec := entry.2 }, st) := by
      simp only [faithfulClient, hst]
    have hP : faithfulClient.Patch st (appScaledObject host httpso) =
        (none, st.set { Namespace := httpso.Namespace, Name := httpso.Name }
          (some (entry.1 + 1, (appScaledObject host httpso).Spec))) := by
      simp only [faithfulClient, hkey, hst]
    have hae : IsAlreadyExists alreadyExistsError = true := by decide
    have hrun : createOrUpdateScaledObject faithfulClient st host httpso =
        recordCreatedAndPurge faithfulClient
          (st.set { Namespace := httpso.Namespace, Name := httpso.Name }
            (some (entry.1 + 1, (appScaledObject host httpso).Spec))) httpso
          [Call.Create (appScaledObject host httpso),
           Call.Get { Namespace := httpso.Namespace, Name := httpso.Name },
           Call.Patch (appScaledObject host httpso)] := by
      unfold createOrUpdateScaledObject
      simp only [hC, hae, hk, hG, hP]
      rfl
    obtain ⟨h1, h2, h3⟩ := faithful_recordCreatedAndPurge
      (st.set { Namespace := httpso.Namespace, Name := httpso.Name }
        (some (entry.1 + 1, (appScaledObject host httpso).Spec))) httpso
      [Call.Create (appScaledObject host httpso),
       Call.Get { Namespace := httpso.Namespace, Name := httpso.Name },
       Call.Patch (appScaledObject host httpso)]
    rw [hrun]
    refine ⟨h1, ?_, h2⟩
    unfold Store.spec
    rw [h3 _ hne]
    simp [Store.set]

theorem createOrUpdate_httpso_frame {σ : Type} (cl : Client σ) (st : σ) (host : String)
    (httpso : HTTPScaledObject) :
    ∃ cs, (createOrUpdateScaledObject cl st host httpso).httpso =
      { httpso with Conditions := cs } := by
  rcases createOrUpdate_cases cl st host httpso with h | h | h | h | h
  · obtain ⟨_, h⟩ := h
    rw [h, recordCreatedAndPurge_httpso]
    exact ⟨_, rfl⟩
  · obtain ⟨e, _, _, h⟩ := h
    rw [h]
    exact ⟨_, rfl⟩
  · obtain ⟨e, e1, _, _, _, h⟩ := h
    rw [h]
    exact ⟨httpso.Conditions, rfl⟩
  · obtain ⟨e, obj, e2, _, _, _, _, h⟩ := h
    rw [h]
    exact ⟨httpso.Conditions, rfl⟩
  · obtain ⟨e, obj, _, _, _, _, h⟩ := h
    rw [h, recordCreatedAndPurge_httpso]
    exact ⟨_, rfl⟩

/-- C7: on the faithful store, for every intent, scaler address and initial store
state, running `createOrUpdateScaledObject` twice in a row (the second run on the
intent as the first run left it, or on the intent as it was) returns no error
on either run, and the spec stored under (namespace, name) after the second run is
the one stored after the first run, namely the spec of the desired payload. -/
theorem createOrUpdate_idempotent (st : Store) (host : String) (httpso : HTTPScaledObject) :
    let key : ObjectKey := { Namespace := httpso.Namespace, Name := httpso.Name }
    let r1 := createOrUpdateScaledObject faithfulClient st host httpso
    let r2 := createOrUpdateScaledObject faithfulClient r1.store host r1.httpso
    let r2same := createOrUpdateScaledObject faithfulClient r1.store host httpso
    r1.err = none ∧ r2.err = none ∧ r2same.err = none ∧
    Store.spec r1.store key = some (appScaledObject host httpso).Spec ∧
    Store.spec r2.store key = Store.spec r1.store key ∧
    Store.spec r2same.store key = Store.spec r1.store key := by
  intro key r1 r2 r2same
  obtain ⟨h1, h2, _⟩ := faithful_createOrUpdate st host httpso
  obtain ⟨cs, hcs⟩ := createOrUpdate_httpso_frame faithfulClient st host httpso
  have hr2 : r2 = createOrUpdateScaledObject faithfulClient r1.store host
      { httpso with Conditions := cs } := by
    show createOrUpdateScaledObject faithfulClient r1.store host r1.httpso = _
    rw [show r1.httpso = { httpso with Conditions := cs } from hcs]
  obtain ⟨g1, g2, _⟩ := faithful_createOrUpdate r1.store host { httpso with Conditions := cs }
  obtain ⟨k1, k2, _⟩ := faithful_createOrUpdate r1.store host httpso
  have h2a : Store.spec r1.store key = some (appScaledObject host httpso).Spec := h2
  refine ⟨h1, ?_, k1, h2a, ?_, ?_⟩
  · rw [hr2]; exact g1
  · rw [hr2, h2a]; exact g2
  · rw [h2a]; exact k2

/-- C8: on the faithful store, `purgeLegacySO` with no object under (namespace,
name ++ "-app") returns success and issues no delete; with an object there, two
calls in a row both return success and issue exactly one delete in total: the
first gets and deletes, the second only gets and leaves the store as it found it. -/
theorem purgeLegacySO_idempotent (st : Store) (httpso : HTTPScaledObject) :
    let lkey : ObjectKey := { Namespace := httpso.Namespace, Name := httpso.Name ++ "-app" }
    let r1 := purgeLegacySO faithfulClient st httpso
    let r2 := purgeLegacySO faithfulClient r1.store r1.httpso
    (st lkey = none →
      r1.err = none ∧ (r1.calls.filter Call.isDelete).length = 0 ∧
      r1.calls = [Call.Get lkey]) ∧
    (∀ entry, st lkey = some entry →
      r1.err = none ∧ r2.err = none ∧
      ((r1.calls ++ r2.calls).filter Call.isDelete).length = 1 ∧
      r1.calls = [Call.Get lkey,
                  Call.Delete { Namespace := httpso.Namespace, Name := httpso.Name ++ "-app",
                                ResourceVersion := entry.1, Spec := entry.2 }] ∧
      r1.store lkey = none ∧
      r2.calls = [Call.Get lkey] ∧
      r2.store = r1.store) := by
  intro lkey r1 r2
  have hl : legacyKey httpso = lkey := rfl
  refine ⟨?_, ?_⟩
  · intro h
    have hr1 : r1 = _ := faithful_purge_absent st httpso h
    rw [hr1, hl]
    simp [Call.isDelete]
  · intro entry h
    have hr1 : r1 = _ := faithful_purge_present st httpso entry h
    have hgone : (st.set (legacyKey httpso) none) (legacyKey httpso) = none := by
      simp [Store.set]
    have hr2 : r2 = { err := none, httpso := httpso, store := st.set (legacyKey httpso) none,
                      calls := [Call.Get (legacyKey httpso)] } := by
      show purgeLegacySO faithfulClient r1.store r1.httpso = _
      rw [hr1]
      exact faithful_purge_absent (st.set (legacyKey httpso) none) httpso hgone
    rw [hr2, hr1, hl]
    rw [hl] at hgone
    simp [Call.isDelete, hgone]

/-- C8 at concrete inputs: the empty store, and the store holding `ns/foo-app`. -/
theorem purgeLegacySO_idempotent_witness :
    (purgeLegacySO faithfulClient Store.empty fooHTTPSO).calls =
      [Call.Get { Namespace := "ns", Name := "foo-app" }] ∧
    ((purgeLegacySO faithfulClient legacyOnlyStore fooHTTPSO).calls ++
      (purgeLegacySO faithfulClient
        (purgeLegacySO faithfulClient legacyOnlyStore fooHTTPSO).store
        (purgeLegacySO faithfulClient legacyOnlyStore fooHTTPSO).httpso).calls).filter
        Call.isDelete =
      [Call.Delete { fooLegacySO with ResourceVersion := 7 }] :=
  ⟨((purgeLegacySO_idempotent Store.empty fooHTTPSO).1 (by decide)).2.2,
   by
    have h := ((purgeLegacySO_idempotent legacyOnlyStore fooHTTPSO).2
      (7, fooLegacySO.Spec) (by decide)).2.2.2
    rw [h.1, h.2.2.1]
    decide⟩

end KedaHttp
